import Mathlib

/-!
# swarm-bootstrap: `containerhandler.go`

A shallow embedding of `src/containerhandler.go` and proofs about it.

Conventions of the embedding:

* Go strings are Lean `String`s; the library routines used by the program
  (`strings.Contains`, `strings.Split`, `strconv.Atoi`) work on the character
  list of the string.  For text (valid UTF-8) the byte-level search of Go and
  the character-level search agree.
* Go `int` is the 64-bit signed integer; arithmetic that can overflow is
  wrapped explicitly (`wrapInt`).
* A Go run-time panic (index out of range, nil dereference) is an
  `Except.error`.
* The remote Docker client is a record of state-passing functions; every
  operation of the program returns the list of client calls it made.
-/

namespace SwarmBootstrap

/-! ## Go run-time -/

/-- The run-time panics the program can raise. -/
inductive Panic where
  | indexOutOfRange
  | nilDereference
  deriving DecidableEq, Repr

deriving instance DecidableEq for Except

/-- Two's complement wrap-around of a mathematical integer to Go's 64-bit `int`. -/
def wrapInt (x : Int) : Int := (x + 2 ^ 63) % 2 ^ 64 - 2 ^ 63

/-- Largest value of Go's 64-bit `int`. -/
def maxInt : Int := 2 ^ 63 - 1

/-- Smallest value of Go's 64-bit `int`. -/
def minInt : Int := -(2 ^ 63)

/-- Go slice indexing `xs[i]`: panics when `i` is negative or not below `len(xs)`. -/
def goIndex {α : Type} (xs : List α) (i : Int) : Except Panic α :=
  if i < 0 then .error .indexOutOfRange
  else
    match xs[i.toNat]? with
    | some x => .ok x
    | none => .error .indexOutOfRange

/-! ## `strings` -/

/-- Character-list core of `strings.Index`: position of the first occurrence of
`sub` in `s`, `none` for Go's `-1`. -/
def indexChars (sub : List Char) : List Char → Option Nat
  | [] => if sub = [] then some 0 else none
  | c :: cs =>
    if sub.isPrefixOf (c :: cs) then some 0
    else (indexChars sub cs).map (· + 1)

/-- Go's `strings.Index(s, substr)`. -/
def stringsIndex (s substr : String) : Option Nat := indexChars substr.data s.data

/-- Go's `strings.Contains(s, substr)`, which is `Index(s, substr) >= 0`. -/
def stringsContains (s substr : String) : Bool := (stringsIndex s substr).isSome

/-- Loop of `strings.Count` for a non-empty `sub`: counts non-overlapping
occurrences.  Every round consumes at least one character, so `s.length`
rounds are enough; the first argument bounds the rounds. -/
def countLoop (sub : List Char) : Nat → List Char → Nat
  | 0, _ => 0
  | fuel + 1, s =>
    match indexChars sub s with
    | none => 0
    | some i => 1 + countLoop sub fuel (s.drop (i + sub.length))

/-- Go's `strings.Count(s, substr)`. -/
def stringsCount (s substr : String) : Nat :=
  if substr.data = [] then s.data.length + 1
  else countLoop substr.data s.data.length s.data

/-- Loop of `strings.genSplit` (with `sepSave = 0`): at most `n` cuts, each at
the first occurrence of `sep`; the rest of the text is the last piece. -/
def genSplitLoop (sep : List Char) : Nat → List Char → List (List Char)
  | 0, s => [s]
  | n + 1, s =>
    match indexChars sep s with
    | none => [s]
    | some m => s.take m :: genSplitLoop sep n (s.drop (m + sep.length))

/-- Go's `strings.Split(s, sep)`: for an empty separator the text is exploded
into its characters, otherwise it is cut at every occurrence of `sep`. -/
def stringsSplit (s sep : String) : List String :=
  if sep.data = [] then s.data.map (fun c => String.mk [c])
  else (genSplitLoop sep.data (stringsCount s sep) s.data).map String.mk

/-! ## `strconv` -/

/-- The two errors of `strconv`: `ErrSyntax` and `ErrRange`. -/
inductive NumError where
  | syntaxError
  | rangeError
  deriving DecidableEq, Repr

/-- The digit loop of `strconv.ParseUint(s, 10, 64)`: characters are consumed
left to right; a character that is not a decimal digit ends the loop with
`(0, ErrSyntax)`, an overflow of the 64-bit accumulator ends it with
`(2^64 - 1, ErrRange)`. -/
def parseUintLoop : List Char → Nat → Nat × Option NumError
  | [], n => (n, none)
  | c :: cs, n =>
    if '0' ≤ c ∧ c ≤ '9' then
      if n ≥ (2 ^ 64 - 1) / 10 + 1 then (2 ^ 64 - 1, some .rangeError)
      else
        let n1 := n * 10 + (c.toNat - '0'.toNat)
        if n1 > 2 ^ 64 - 1 then (2 ^ 64 - 1, some .rangeError)
        else parseUintLoop cs n1
    else (0, some .syntaxError)

/-- Go's `strconv.ParseUint(s, 10, 64)` on the characters of `s`. -/
def parseUint (s : List Char) : Nat × Option NumError :=
  if s = [] then (0, some .syntaxError) else parseUintLoop s 0

/-- Go's `strconv.ParseInt(s, 10, 0)` on a 64-bit platform, on the characters
of `s`: an optional sign, then `ParseUint`; a syntax error gives `0`, a value
out of range gives the nearest bound together with `ErrRange`. -/
def parseInt (s : List Char) : Int × Option NumError :=
  if s = [] then (0, some .syntaxError)
  else
    let neg := s.head? = some '-'
    let body := if s.head? = some '+' ∨ s.head? = some '-' then s.tail else s
    match parseUint body with
    | (_, some .syntaxError) => (0, some .syntaxError)
    | (un, _) =>
      if ¬ neg ∧ un ≥ 2 ^ 63 then (maxInt, some .rangeError)
      else if neg ∧ un > 2 ^ 63 then (minInt, some .rangeError)
      else (if neg then -(un : Int) else (un : Int), none)

/-- Go's `strconv.Atoi(s)`: the value and the error, as the pair Go returns. -/
def strconvAtoi (s : String) : Int × Option NumError := parseInt s.data

/-! ## `getSwarmNodes` -/

/-- The two fields of `docker.SwarmNode` the program uses. -/
structure SwarmNode where
  Addr : String
  Name : String
  deriving DecidableEq, Repr

/-- The key the program compares the first row of `DriverStatus` with: the Go
literal `"\bNodes"`, a backspace character followed by `Nodes`. -/
def nodesSentinel : String := "\x08Nodes"

/-- The `for i := 0; i < nodeCount; i++` loop of `getSwarmNodes`.  The first
argument is the number of rounds still to run, `i` is the loop counter, `acc`
is `swarmNodes`.  Each round reads `DriverStatus[i*4+1][1]` and
`DriverStatus[i*4+1][0]` and appends a node. -/
def getSwarmNodesLoop (driverStatus : List (List String)) :
    Nat → Int → List SwarmNode → Except Panic (List SwarmNode)
  | 0, _, acc => .ok acc
  | k + 1, i, acc =>
    match goIndex driverStatus (wrapInt (i * 4 + 1)) with
    | .error e => .error e
    | .ok rowA =>
      match goIndex rowA 1 with
      | .error e => .error e
      | .ok addr =>
        match goIndex driverStatus (wrapInt (i * 4 + 1)) with
        | .error e => .error e
        | .ok rowN =>
          match goIndex rowN 0 with
          | .error e => .error e
          | .ok name =>
            getSwarmNodesLoop driverStatus k (i + 1) (acc ++ [{ Addr := addr, Name := name }])

/-- The function `getSwarmNodes`, applied to `info.DriverStatus`: the rows of the
report of the temporary manager.  The error of `Atoi` is discarded, as in the
source; the loop runs `nodeCount` rounds when `nodeCount` is positive and none
otherwise. -/
def getSwarmNodes (driverStatus : List (List String)) : Except Panic (List SwarmNode) :=
  match goIndex driverStatus 0 with
  | .error e => .error e
  | .ok row0 =>
    match goIndex row0 0 with
    | .error e => .error e
    | .ok key =>
      if key = nodesSentinel then
        match goIndex row0 1 with
        | .error e => .error e
        | .ok count =>
          let nodeCount := (strconvAtoi count).1
          getSwarmNodesLoop driverStatus nodeCount.toNat 0 []
      else .ok []

/-! ## Docker client types -/

/-- The type `docker.PortBinding`. -/
structure PortBinding where
  HostIp : String
  HostPort : String
  deriving DecidableEq, Repr

/-- The type `docker.RestartPolicy`, its name only. -/
structure RestartPolicy where
  Name : String
  deriving DecidableEq, Repr

/-- The fields of `docker.HostConfig` the program sets; a Go map is the list
of its entries in the order they are inserted, a field left out has its zero
value. -/
structure HostConfig where
  Binds : List String := []
  NetworkMode : String := ""
  RestartPolicy : RestartPolicy := { Name := "" }
  PortBindings : List (String × List PortBinding) := []
  deriving DecidableEq, Repr

/-- The fields of `docker.ContainerConfig` the program sets. -/
structure ContainerConfig where
  Image : String := ""
  Cmd : List String := []
  Env : List String := []
  ExposedPorts : List String := []
  HostConfig : HostConfig := {}
  deriving DecidableEq, Repr

/-- The fields of `docker.ContainerInfo` the program reads; `Node` is a pointer
and may be nil. -/
structure ContainerInfo where
  Id : String
  Name : String
  Node : Option SwarmNode
  deriving DecidableEq, Repr

/-- A Go `error` value of the client, by its message. -/
abbrev GoError := String

/-- The remote container-management client: the three calls the program makes,
each a function of the state of the remote side.  `CreateContainer` returns Go's
pair `(id, err)`, `StartContainer` returns `err`, `InspectContainer` returns
`(info, err)` where `info` is a pointer and may be nil; `none` is a nil error. -/
structure DockerClient (σ : Type) where
  CreateContainer : ContainerConfig → String → σ → (String × Option GoError) × σ
  StartContainer : String → HostConfig → σ → Option GoError × σ
  InspectContainer : String → σ → (Option ContainerInfo × Option GoError) × σ

/-- A call made to the client, with its arguments. -/
inductive Call where
  | createContainer (config : ContainerConfig) (name : String)
  | startContainer (id : String) (hostConfig : HostConfig)
  | inspectContainer (id : String)
  deriving DecidableEq, Repr

/-- What one operation of the program did: the client calls in the order they
were made, the state of the remote side afterwards, and how the operation
ended: a normal return with a value, or a panic. -/
structure Run (σ α : Type) where
  calls : List Call
  state : σ
  result : Except Panic α

/-! ## `copyConsulConfigs` -/

/-- The type `PortConfig` of the program, as the composite literal uses it. -/
structure PortConfig where
  DNS : Int
  HTTP : Int
  HTTPS : Int
  deriving DecidableEq, Repr

/-- The type `ConsulConfig` of the program, as `copyConsulConfigs` uses it. -/
structure ConsulConfig where
  AdvertiseAddr : String
  DataDir : String
  UiDir : String
  ClientAddr : String
  DNSRecursor : String
  DisableUpdateCheck : Bool
  RetryJoin : List String
  Ports : PortConfig
  BootstrapExpect : Int := 0
  Server : Bool := false
  deriving DecidableEq, Repr

/-- The `for _, consulServer := range consulServers` loop of `copyConsulConfigs`
on the pair `(server, joinIPs)`. -/
def classifyLoop (addr : String) : List String → Bool × List String → Bool × List String
  | [], st => st
  | consulServer :: rest, (server, joinIPs) =>
    if stringsContains addr consulServer then classifyLoop addr rest (true, joinIPs)
    else classifyLoop addr rest (server, joinIPs ++ [consulServer])

/-- The `ConsulConfig` value `copyConsulConfigs` builds for a node and a server
list (the source up to the `if server` block). -/
def buildConsulConfig (node : SwarmNode) (consulServers : List String) :
    Except Panic ConsulConfig :=
  let st := classifyLoop node.Addr consulServers (false, [])
  match goIndex (stringsSplit node.Addr ":") 0 with
  | .error e => .error e
  | .ok advertise =>
    let consulConfig : ConsulConfig :=
      { AdvertiseAddr := advertise
        DataDir := "/data"
        UiDir := "/ui"
        ClientAddr := "0.0.0.0"
        DNSRecursor := "8.8.8.8"
        DisableUpdateCheck := true
        RetryJoin := st.2
        Ports := { DNS := 53, HTTP := 8500, HTTPS := -1 } }
    if st.1 then
      .ok { consulConfig with BootstrapExpect := consulServers.length, Server := true }
    else .ok consulConfig

/-- The function `copyConsulConfigs`.  `marshal` stands for
`json.MarshalIndent(consulConfig, "", "  ")`, whose output depends on the field
tags of `ConsulConfig`.  The errors of `CreateContainer` and `StartContainer` are
discarded, as in the source. -/
def copyConsulConfigs {σ : Type} (client : DockerClient σ) (marshal : ConsulConfig → String)
    (node : SwarmNode) (consulServers : List String) (st : σ) : Run σ Unit :=
  match buildConsulConfig node consulServers with
  | .error e => { calls := [], state := st, result := .error e }
  | .ok consulConfig =>
    let hostConfig : HostConfig := { Binds := ["/etc/consul:/config"] }
    let consulConfigJson := marshal consulConfig
    let config : ContainerConfig :=
      { Image := "gliderlabs/alpine:3.1"
        Cmd := ["sh", "-c",
          "echo '" ++ consulConfigJson ++ "' > /config/consul.json && cat /config/consul.json"]
        Env := ["constraint:node==" ++ node.Name]
        HostConfig := hostConfig }
    let r1 := client.CreateContainer config "" st
    let id := r1.1.1
    let r2 := client.StartContainer id hostConfig r1.2
    { calls := [.createContainer config "", .startContainer id hostConfig]
      state := r2.2
      result := .ok () }

/-! ## `startConsulContainer` -/

/-- The `hostConfig` of `startConsulContainer`. -/
def consulHostConfig : HostConfig :=
  { Binds := ["/etc/consul/consul.json:/config/consul.json"]
    NetworkMode := "host"
    RestartPolicy := { Name := "always" }
    PortBindings :=
      [("8500/tcp", [{ HostIp := "0.0.0.0", HostPort := "8500" }]),
       ("8400/tcp", [{ HostIp := "0.0.0.0", HostPort := "8400" }])] }

/-- The `config` of `startConsulContainer`; `consulImage` is the constant
`ConsulImage` of the program. -/
def consulContainerConfig (consulImage : String) : ContainerConfig :=
  { Image := consulImage
    ExposedPorts := ["8500/tcp", "8400/tcp"]
    HostConfig := consulHostConfig }

/-- The function `startConsulContainer`.  All three errors are discarded, as in
the source; `container.Node.Name` in the last log line dereferences the result
of `InspectContainer` and its `Node`, which panics when either is nil. -/
def startConsulContainer {σ : Type} (client : DockerClient σ) (consulImage : String)
    (name : String) (st : σ) : Run σ SwarmNode :=
  let hostConfig := consulHostConfig
  let config := consulContainerConfig consulImage
  let r1 := client.CreateContainer config name st
  let containerID := r1.1.1
  let r2 := client.StartContainer containerID hostConfig r1.2
  let r3 := client.InspectContainer containerID r2.2
  { calls := [.createContainer config name, .startContainer containerID hostConfig,
      .inspectContainer containerID]
    state := r3.2
    result :=
      match r3.1.1 with
      | none => .error .nilDereference
      | some container =>
        match container.Node with
        | none => .error .nilDereference
        | some node => .ok node }

/-! ## `startSwarmAgentContainer` and `startSwarmManagerContainer` -/

/-- The function `startSwarmAgentContainer`; `swarmImage` is the constant
`SwarmImage` of the program. -/
def startSwarmAgentContainer {σ : Type} (client : DockerClient σ) (swarmImage : String)
    (name : String) (node : SwarmNode) (consulIP : String) (st : σ) : Run σ Unit :=
  let config : ContainerConfig :=
    { Image := swarmImage
      Cmd := ["join", "--addr=" ++ node.Addr, "consul://" ++ consulIP ++ ":8500/swarm"]
      Env := ["constraint:node==" ++ node.Name] }
  let r1 := client.CreateContainer config name st
  let containerID := r1.1.1
  let r2 := client.StartContainer containerID {} r1.2
  { calls := [.createContainer config name, .startContainer containerID {}]
    state := r2.2
    result := .ok () }

/-- The function `startSwarmManagerContainer`; `swarmImage` and
`tmpSwarmContainerName` are the constants `SwarmImage` and
`TmpSwarmContainerName` of the program.  It returns the container id. -/
def startSwarmManagerContainer {σ : Type} (client : DockerClient σ)
    (swarmImage tmpSwarmContainerName : String)
    (name : String) (discoveryParam : String) (bindPort : Bool) (st : σ) : Run σ String :=
  let hostConfig : HostConfig :=
    if bindPort then
      { PortBindings := [("3376/tcp", [{ HostIp := "0.0.0.0", HostPort := "3376" }])] }
    else {}
  let config : ContainerConfig :=
    { Image := swarmImage
      Cmd := ["--debug", "manage", "-H", "tcp://0.0.0.0:3376", discoveryParam]
      Env := ["affinity:container==" ++ tmpSwarmContainerName]
      ExposedPorts := ["3376/tcp"]
      HostConfig := hostConfig }
  let r1 := client.CreateContainer config name st
  let containerID := r1.1.1
  let r2 := client.StartContainer containerID hostConfig r1.2
  { calls := [.createContainer config name, .startContainer containerID hostConfig]
    state := r2.2
    result := .ok containerID }

/-! ## Reading a bind specification -/

/-- Docker's reading of a bind specification `host:container[:options]`, the
form of the entries of `HostConfig.Binds`: the mount is read-only when the
third part names the option `ro`; with no third part the mount is read-write. -/
def bindIsReadOnly (bind : String) : Bool :=
  match stringsSplit bind ":" with
  | [_, _, options] => decide ("ro" ∈ stringsSplit options ",")
  | _ => false

/-- The container specifications an operation submitted with `CreateContainer`,
in order. -/
def createdConfigs : List Call → List ContainerConfig
  | [] => []
  | .createContainer config _ :: rest => config :: createdConfigs rest
  | _ :: rest => createdConfigs rest

/-- A client on which every call fails: `CreateContainer` returns the empty id
and an error, `InspectContainer` returns nil and an error.  Its state counts
the calls received. -/
def failingClient : DockerClient Nat where
  CreateContainer := fun _ _ n => (("", some "create failed"), n + 1)
  StartContainer := fun _ _ n => (some "start failed", n + 1)
  InspectContainer := fun _ n => ((none, some "inspect failed"), n + 1)

/-- A client on which `CreateContainer` fails and the other calls succeed. -/
def createFailingClient : DockerClient Nat where
  CreateContainer := fun _ _ n => (("", some "create failed"), n + 1)
  StartContainer := fun _ _ n => (none, n + 1)
  InspectContainer := fun id n =>
    ((some { Id := id, Name := "c", Node := some { Addr := "10.0.0.1:2375", Name := "nodeA" } },
      none), n + 1)

/-! ## Vocabulary for the count text and sample reports -/

/-- Whether a character is a decimal digit, the test `ParseUint` applies. -/
def isDecimalDigit (c : Char) : Bool := decide ('0' ≤ c ∧ c ≤ '9')

/-- The number written by the decimal digits `cs` read after the value `a`,
with no bound on its size. -/
def digitsValue (a : Nat) (cs : List Char) : Nat :=
  cs.foldl (fun v c => v * 10 + (c.toNat - '0'.toNat)) a

/-- The count text without a leading `+`. -/
def unsignedPart (count : String) : List Char :=
  if count.data.head? = some '+' then count.data.tail else count.data

/-- The decimal digits at the start of the count text, after an optional `+`. -/
def leadingDigits (count : String) : List Char :=
  (unsignedPart count).takeWhile isDecimalDigit

/-- A report for three nodes, in the layout the comment of `getSwarmNodes`
describes. -/
def reportOfThree : List (List String) :=
  [[nodesSentinel, "3"],
   ["nodeA", "10.0.0.1:2375"], [" └ Containers", "1"], [" └ Reserved CPUs", "0 / 1"],
     [" └ Reserved Memory", "0 B / 1.0 GiB"],
   ["nodeB", "10.0.0.2:2375"], [" └ Containers", "1"], [" └ Reserved CPUs", "0 / 1"],
     [" └ Reserved Memory", "0 B / 1.0 GiB"],
   ["nodeC", "10.0.0.3:2375"], [" └ Containers", "1"], [" └ Reserved CPUs", "0 / 1"],
     [" └ Reserved Memory", "0 B / 1.0 GiB"]]

/-- A report for one node whose key is `Nodes` without the leading backspace. -/
def reportPlainKey : List (List String) :=
  [["Nodes", "1"],
   ["nodeA", "10.0.0.1:2375"], [" └ Containers", "1"], [" └ Reserved CPUs", "0 / 1"],
     [" └ Reserved Memory", "0 B / 1.0 GiB"]]

/-- A report that announces one node and ends after the first row of its block. -/
def reportCutShort : List (List String) :=
  [[nodesSentinel, "1"], ["nodeA", "10.0.0.1:2375"]]

/-! ## Lemmas on `strings` -/

theorem indexChars_prefix (p r : List Char) : indexChars p (p ++ r) = some 0 := by
  cases h : p ++ r with
  | nil =>
    have hp : p = [] := (List.append_eq_nil.mp h).1
    simp [indexChars, hp]
  | cons c cs =>
    have hpre : p.isPrefixOf (c :: cs) = true := by
      rw [← h]; exact List.isPrefixOf_iff_prefix.mpr (List.prefix_append p r)
    simp [indexChars, hpre]

theorem indexChars_single (c : Char) (s : List Char) :
    indexChars [c] s =
      if c ∈ s then some (s.takeWhile (fun x => x != c)).length else none := by
  induction s with
  | nil => simp [indexChars]
  | cons x xs ih =>
    by_cases hx : x = c
    · subst hx
      simp [indexChars, List.isPrefixOf]
    · have hx2 : ¬ c = x := fun h => hx h.symm
      simp [indexChars, List.isPrefixOf, hx, hx2, ih]

theorem take_takeWhile_length (p : Char → Bool) (s : List Char) :
    s.take (s.takeWhile p).length = s.takeWhile p := by
  induction s with
  | nil => simp
  | cons x xs ih =>
    by_cases hx : p x = true
    · simp [List.takeWhile, hx, ih]
    · simp [List.takeWhile, hx]

theorem genSplitLoop_head (c : Char) (s : List Char) :
    (genSplitLoop [c] (countLoop [c] s.length s) s)[0]? =
      some (s.takeWhile (fun x => x != c)) := by
  by_cases hc : c ∈ s
  · have hidx := indexChars_single c s
    rw [if_pos hc] at hidx
    obtain ⟨n, hn⟩ : ∃ n, s.length = n + 1 := by
      cases s with
      | nil => simp at hc
      | cons x xs => exact ⟨xs.length, rfl⟩
    rw [hn]
    simp only [countLoop, hidx]
    rw [Nat.add_comm 1, genSplitLoop]
    simp [hidx, take_takeWhile_length]
  · have hidx := indexChars_single c s
    rw [if_neg hc] at hidx
    have htw : s.takeWhile (fun x => x != c) = s := by
      apply List.takeWhile_eq_self_iff.mpr
      intro x hx
      have : x ≠ c := fun h => hc (h ▸ hx)
      simp [this]
    rw [htw]
    cases hl : s.length with
    | zero => simp [countLoop, genSplitLoop]
    | succ n => simp [countLoop, hidx, genSplitLoop]

/-- The first piece of `strings.Split(s, ":")` exists for every `s` and is the
text before the first colon. -/
theorem split_colon_head (s : String) :
    goIndex (stringsSplit s ":") 0 = .ok (String.mk (s.data.takeWhile (fun x => x != ':'))) := by
  have h := genSplitLoop_head ':' s.data
  have hsep : (":" : String).data = [':'] := rfl
  simp only [goIndex, stringsSplit, stringsCount, hsep]
  simp
  rw [show s.length = s.data.length from rfl, h]
  rfl

theorem stringsContains_prefix (s p : String) (r : List Char) (h : s.data = p.data ++ r) :
    stringsContains s p = true := by
  simp [stringsContains, stringsIndex, h, indexChars_prefix]

theorem stringsContains_self (s : String) : stringsContains s s = true :=
  stringsContains_prefix s s [] (by simp)

theorem classifyLoop_eq (addr : String) (l : List String) (b : Bool) (j : List String) :
    classifyLoop addr l (b, j) =
      (b || l.any (fun x => stringsContains addr x),
        j ++ l.filter (fun x => !stringsContains addr x)) := by
  induction l generalizing b j with
  | nil => simp [classifyLoop]
  | cons x xs ih =>
    by_cases hx : stringsContains addr x = true
    · simp [classifyLoop, hx, ih]
    · simp [classifyLoop, hx, ih]

/-- The value of `buildConsulConfig`, field by field. -/
theorem buildConsulConfig_eq (node : SwarmNode) (servers : List String) :
    buildConsulConfig node servers = .ok
      { AdvertiseAddr := String.mk (node.Addr.data.takeWhile (fun x => x != ':'))
        DataDir := "/data"
        UiDir := "/ui"
        ClientAddr := "0.0.0.0"
        DNSRecursor := "8.8.8.8"
        DisableUpdateCheck := true
        RetryJoin := servers.filter (fun x => !stringsContains node.Addr x)
        Ports := { DNS := 53, HTTP := 8500, HTTPS := -1 }
        BootstrapExpect :=
          if servers.any (fun x => stringsContains node.Addr x) then servers.length else 0
        Server := servers.any (fun x => stringsContains node.Addr x) } := by
  simp only [buildConsulConfig, split_colon_head, classifyLoop_eq]
  by_cases h : servers.any (fun x => stringsContains node.Addr x) = true
  · simp [h]
  · simp [h]

/-! ## Lemmas on `strconv` -/

theorem digitChar_spec (d : Nat) (h : d < 10) :
    ('0' ≤ Nat.digitChar d ∧ Nat.digitChar d ≤ '9') ∧
      (Nat.digitChar d).toNat - '0'.toNat = d := by
  interval_cases d <;> decide

/-- Reading the decimal digits that `Nat.toDigitsCore` writes in front of `ds`
is reading `ds` with the accumulator `n`, unless `n` exceeds 64 bits. -/
theorem parseUintLoop_toDigitsCore (fuel : Nat) :
    ∀ (n : Nat) (ds : List Char), n < fuel →
      parseUintLoop (Nat.toDigitsCore 10 fuel n ds) 0 =
        if n < 2 ^ 64 then parseUintLoop ds n else (2 ^ 64 - 1, some .rangeError) := by
  induction fuel with
  | zero => intro n ds h; omega
  | succ fuel ih =>
    intro n ds hn
    obtain ⟨hdig, hval⟩ := digitChar_spec (n % 10) (Nat.mod_lt _ (by norm_num))
    simp only [Nat.toDigitsCore]
    by_cases h0 : n / 10 = 0
    · have hlt : n < 10 := by omega
      have hmod : n % 10 = n := Nat.mod_eq_of_lt hlt
      rw [hmod] at hdig hval
      simp only [h0, if_true, hmod]
      rw [parseUintLoop]
      have h64 : n < 2 ^ 64 := by omega
      simp only [hdig, and_self, if_true, hval, h64]
      norm_num
      intro hbig
      omega
    · simp only [h0, if_false]
      rw [ih (n / 10) _ (by omega)]
      have hn1 : n / 10 * 10 + n % 10 = n := by omega
      by_cases hq : n / 10 < 2 ^ 64
      · rw [if_pos hq, parseUintLoop]
        simp only [hdig, and_self, if_true, hval, hn1]
        split_ifs <;> first | rfl | (exfalso; omega)
      · rw [if_neg hq, if_neg (by omega)]

theorem toDigitsCore_chars (fuel : Nat) :
    ∀ (n : Nat) (ds : List Char) (c : Char), c ∈ Nat.toDigitsCore 10 fuel n ds →
      c ∈ ds ∨ ('0' ≤ c ∧ c ≤ '9') := by
  induction fuel with
  | zero => intro n ds c h; left; simpa [Nat.toDigitsCore] using h
  | succ fuel ih =>
    intro n ds c h
    obtain ⟨hdig, _⟩ := digitChar_spec (n % 10) (Nat.mod_lt _ (by norm_num))
    simp only [Nat.toDigitsCore] at h
    by_cases h0 : n / 10 = 0
    · simp only [h0, if_true, List.mem_cons] at h
      rcases h with h | h
      · right; rw [h]; exact hdig
      · left; exact h
    · simp only [h0, if_false] at h
      rcases ih _ _ _ h with h | h
      · rcases List.mem_cons.mp h with h | h
        · right; rw [h]; exact hdig
        · left; exact h
      · right; exact h

theorem toDigitsCore_ne_nil (fuel : Nat) :
    ∀ (n : Nat) (ds : List Char), ds ≠ [] → Nat.toDigitsCore 10 fuel n ds ≠ [] := by
  induction fuel with
  | zero => intro n ds h; simpa [Nat.toDigitsCore] using h
  | succ fuel ih =>
    intro n ds _
    simp only [Nat.toDigitsCore]
    by_cases h0 : n / 10 = 0
    · simp [h0]
    · simp only [h0, if_false]
      exact ih _ _ (by simp)

theorem toDigits_ne_nil (n : Nat) : Nat.toDigits 10 n ≠ [] := by
  simp only [Nat.toDigits, Nat.toDigitsCore]
  by_cases h0 : n / 10 = 0
  · simp [h0]
  · simp only [h0, if_false]
    exact toDigitsCore_ne_nil _ _ _ (by simp)

/-- The value `strconv.Atoi` gives for the decimal text of a natural number:
the number itself when it fits a 64-bit `int`, the largest `int` otherwise. -/
theorem strconvAtoi_toString (n : Nat) :
    (strconvAtoi (toString n)).1 = if n < 2 ^ 63 then (n : Int) else maxInt := by
  have hdata : (toString n).data = Nat.toDigits 10 n := rfl
  have hne := toDigits_ne_nil n
  have hhead : ∀ c, (Nat.toDigits 10 n).head? = some c → ('0' ≤ c ∧ c ≤ '9') := by
    intro c hc
    have hmem : c ∈ Nat.toDigits 10 n := List.mem_of_mem_head? hc
    rcases toDigitsCore_chars _ _ _ _ hmem with h | h
    · simp at h
    · exact h
  have hplus : ¬ (Nat.toDigits 10 n).head? = some '+' := fun h => by
    have := hhead _ h
    revert this
    decide
  have hminus : ¬ (Nat.toDigits 10 n).head? = some '-' := fun h => by
    have := hhead _ h
    revert this
    decide
  have hloop := parseUintLoop_toDigitsCore (n + 1) n [] (Nat.lt_succ_self n)
  simp only [strconvAtoi, parseInt, hdata, hne, if_false, hplus, hminus, or_self, parseUint]
  rw [show Nat.toDigitsCore 10 (n + 1) n [] = Nat.toDigits 10 n from rfl] at hloop
  rw [hloop]
  by_cases h64 : n < 2 ^ 64
  · rw [if_pos h64]
    simp only [parseUintLoop, not_false_eq_true, true_and, false_and, if_false]
    split_ifs <;> first | rfl | (exfalso; omega)
  · rw [if_neg h64]
    simp only [not_false_eq_true, true_and, false_and, if_false]
    split_ifs <;> first | rfl | (exfalso; omega)

theorem le_digitsValue (cs : List Char) : ∀ a : Nat, a ≤ digitsValue a cs := by
  induction cs with
  | nil => intro a; simp [digitsValue]
  | cons c cs ih =>
    intro a
    have h := ih (a * 10 + (c.toNat - '0'.toNat))
    simp only [digitsValue, List.foldl_cons] at h ⊢
    omega

/-- Reading decimal digits whose value stays within 64 bits never stops the
digit loop of `ParseUint`: it goes on with the text after them. -/
theorem parseUintLoop_digits (lead rest : List Char) :
    ∀ a : Nat, (∀ c ∈ lead, isDecimalDigit c = true) → digitsValue a lead < 2 ^ 64 →
      parseUintLoop (lead ++ rest) a = parseUintLoop rest (digitsValue a lead) := by
  induction lead with
  | nil => intro a _ _; simp [digitsValue]
  | cons c cs ih =>
    intro a hdig hval
    have hc : '0' ≤ c ∧ c ≤ '9' := by
      have := hdig c (List.mem_cons_self _ _)
      simpa [isDecimalDigit] using this
    have hmono := le_digitsValue cs (a * 10 + (c.toNat - '0'.toNat))
    have hval2 : digitsValue (a * 10 + (c.toNat - '0'.toNat)) cs < 2 ^ 64 := by
      simpa [digitsValue] using hval
    have hrec := ih (a * 10 + (c.toNat - '0'.toNat))
      (fun x hx => hdig x (List.mem_cons_of_mem _ hx)) hval2
    rw [List.cons_append, parseUintLoop, if_pos hc, if_neg (by omega)]
    simp only []
    rw [if_neg (by omega), hrec]
    simp [digitsValue]

theorem parseUintLoop_nondigit (c : Char) (cs : List Char) (a : Nat)
    (h : isDecimalDigit c = false) : parseUintLoop (c :: cs) a = (0, some .syntaxError) := by
  have hc : ¬ ('0' ≤ c ∧ c ≤ '9') := by simpa [isDecimalDigit] using h
  rw [parseUintLoop, if_neg hc]

/-- A count text that starts with `-` gives `Atoi` a value that is not positive. -/
theorem strconvAtoi_minus (count : String) (h : count.data.head? = some '-') :
    (strconvAtoi count).1 ≤ 0 := by
  have hne : count.data ≠ [] := by
    intro he
    simp [he] at h
  simp only [strconvAtoi, parseInt, hne, if_false, h, or_true, if_true, true_and,
    not_true_eq_false, false_and]
  rcases hp : parseUint count.data.tail with ⟨un, err⟩
  rcases err with _ | e
  · dsimp only
    split_ifs
    · simp [minInt]
    · simp
  · cases e
    · simp
    · dsimp only
      split_ifs
      · simp [minInt]
      · simp

/-- A count text without a leading `-` whose digits at the start denote zero, or
stay within 64 bits and are followed by another character, gives `Atoi` the
value zero. -/
theorem strconvAtoi_zero (count : String) (hm : ¬ count.data.head? = some '-')
    (h : digitsValue 0 (leadingDigits count) = 0 ∨
      (digitsValue 0 (leadingDigits count) < 2 ^ 64 ∧
        leadingDigits count ≠ unsignedPart count)) :
    (strconvAtoi count).1 = 0 := by
  by_cases hne : count.data = []
  · simp [strconvAtoi, parseInt, hne]
  have hbody : (if count.data.head? = some '+' ∨ False
      then count.data.tail else count.data) = unsignedPart count := by
    simp [unsignedPart]
  simp only [strconvAtoi, parseInt, hne, if_false, hm, hbody, not_false_eq_true, true_and,
    false_and]
  have hsplit : unsignedPart count
      = leadingDigits count ++ (unsignedPart count).dropWhile isDecimalDigit :=
    (List.takeWhile_append_dropWhile _ _).symm
  have hdig : ∀ c ∈ leadingDigits count, isDecimalDigit c = true := fun c hc =>
    List.mem_takeWhile_imp hc
  have hlt : digitsValue 0 (leadingDigits count) < 2 ^ 64 := by
    rcases h with h | h
    · rw [h]; norm_num
    · exact h.1
  by_cases hb : unsignedPart count = []
  · simp [parseUint, hb]
  have hloop : parseUint (unsignedPart count)
      = parseUintLoop ((unsignedPart count).dropWhile isDecimalDigit)
          (digitsValue 0 (leadingDigits count)) := by
    rw [parseUint, if_neg hb]
    conv_lhs => rw [hsplit]
    exact parseUintLoop_digits _ _ 0 hdig hlt
  rw [hloop]
  cases hd : (unsignedPart count).dropWhile isDecimalDigit with
  | nil =>
    have hall : leadingDigits count = unsignedPart count := by
      rw [hd, List.append_nil] at hsplit
      exact hsplit.symm
    have hz : digitsValue 0 (leadingDigits count) = 0 := by
      rcases h with h | h
      · exact h
      · exact absurd hall h.2
    simp [parseUintLoop, hz]
  | cons c cs =>
    have hc : isDecimalDigit c = false := by
      have := List.head_dropWhile_not isDecimalDigit (unsignedPart count) (by simp [hd])
      simpa [hd] using this
    rw [parseUintLoop_nondigit c cs _ hc]

/-! ## Lemmas on `getSwarmNodes` -/

theorem wrapInt_of_lt (x : Int) (h0 : 0 ≤ x) (h1 : x < 2 ^ 63) : wrapInt x = x := by
  unfold wrapInt
  omega

theorem goIndex_error {α : Type} (xs : List α) (i : Int) (e : Panic)
    (h : goIndex xs i = .error e) : e = .indexOutOfRange := by
  unfold goIndex at h
  split at h
  · cases h; rfl
  · split at h
    · cases h
    · cases h; rfl

theorem goIndex_natCast {α : Type} (xs : List α) (j : Nat) (x : α) (h : xs[j]? = some x) :
    goIndex xs (j : Int) = .ok x := by
  unfold goIndex
  have hneg : ¬ ((j : Int) < 0) := by omega
  simp [hneg, h]

theorem goIndex_natCast_none {α : Type} (xs : List α) (j : Nat) (h : xs.length ≤ j) :
    goIndex xs (j : Int) = .error .indexOutOfRange := by
  unfold goIndex
  have hneg : ¬ ((j : Int) < 0) := by omega
  have hnone : xs[j]? = none := List.getElem?_eq_none h
  simp [hneg, hnone]

/-- The loop of `getSwarmNodes` from round `i` on, when the rows `1 + 4j` it
reads all exist and have two entries: it appends one node per round. -/
theorem getSwarmNodesLoop_ok (ds : List (List String)) :
    ∀ (k i : Nat) (acc : List SwarmNode), 4 * (i + k) < 2 ^ 63 →
      (∀ j, i ≤ j → j < i + k →
        ∃ name addr rest, ds[1 + 4 * j]? = some (name :: addr :: rest)) →
      ∃ nodes, getSwarmNodesLoop ds k (i : Int) acc = .ok (acc ++ nodes) ∧ nodes.length = k ∧
        ∀ j < k, ∃ name addr rest, ds[1 + 4 * (i + j)]? = some (name :: addr :: rest) ∧
          nodes[j]? = some ⟨addr, name⟩ := by
  intro k
  induction k with
  | zero =>
    intro i acc _ _
    exact ⟨[], by simp [getSwarmNodesLoop], rfl, fun j hj => absurd hj (Nat.not_lt_zero j)⟩
  | succ k ih =>
    intro i acc hb hrows
    obtain ⟨name, addr, rest, hrow⟩ := hrows i (Nat.le_refl i) (by omega)
    have hw : wrapInt ((i : Int) * 4 + 1) = ((1 + 4 * i : Nat) : Int) := by
      rw [wrapInt_of_lt _ (by omega) (by omega)]
      push_cast
      ring
    have hidx := goIndex_natCast ds (1 + 4 * i) _ hrow
    obtain ⟨nodes, hres, hlen, hnodes⟩ := ih (i + 1) (acc ++ [⟨addr, name⟩]) (by omega)
      (fun j h1 h2 => hrows j (by omega) (by omega))
    refine ⟨⟨addr, name⟩ :: nodes, ?_, by simp [hlen], ?_⟩
    · rw [getSwarmNodesLoop, hw, hidx]
      have h1 : goIndex (name :: addr :: rest) 1 = .ok addr := by simp [goIndex]
      have h0 : goIndex (name :: addr :: rest) 0 = .ok name := by simp [goIndex]
      simp only [h1, h0]
      have hcast : ((i : Int) + 1) = ((i + 1 : Nat) : Int) := by push_cast; rfl
      rw [hcast, hres]
      simp
    · intro j hj
      cases j with
      | zero => exact ⟨name, addr, rest, by simpa using hrow, by simp⟩
      | succ j =>
        obtain ⟨name2, addr2, rest2, hr2, hn2⟩ := hnodes j (by omega)
        have hidx2 : 1 + 4 * (i + (j + 1)) = 1 + 4 * (i + 1 + j) := by omega
        refine ⟨name2, addr2, rest2, ?_, by simpa using hn2⟩
        rw [hidx2]
        exact hr2

/-- The loop of `getSwarmNodes` panics when one of its rounds reads a row that
does not exist. -/
theorem getSwarmNodesLoop_error (ds : List (List String)) (j : Nat)
    (hbad : goIndex ds (wrapInt ((j : Int) * 4 + 1)) = .error .indexOutOfRange) :
    ∀ (k i : Nat) (acc : List SwarmNode), i ≤ j → j < i + k →
      getSwarmNodesLoop ds k (i : Int) acc = .error .indexOutOfRange := by
  intro k
  induction k with
  | zero => intro i acc h1 h2; omega
  | succ k ih =>
    intro i acc h1 h2
    rw [getSwarmNodesLoop]
    by_cases hij : i = j
    · subst hij
      simp [hbad]
    · have hcast : ((i : Int) + 1) = ((i + 1 : Nat) : Int) := by push_cast; rfl
      have hrec := fun acc2 => ih (i + 1) acc2 (by omega) (by omega)
      cases hA : goIndex ds (wrapInt ((i : Int) * 4 + 1)) with
      | error e =>
        have he := goIndex_error _ _ _ hA
        subst he
        rfl
      | ok rowA =>
        dsimp only
        cases hB : goIndex rowA 1 with
        | error e =>
          have he := goIndex_error _ _ _ hB
          subst he
          rfl
        | ok addr =>
          dsimp only
          cases hC : goIndex rowA 0 with
          | error e =>
            have he := goIndex_error _ _ _ hC
            subst he
            rfl
          | ok name =>
            dsimp only
            rw [hcast]
            exact hrec _

/-- With the sentinel in its first row, `getSwarmNodes` runs its loop as many
rounds as `Atoi` says. -/
theorem getSwarmNodes_sentinel (ds : List (List String)) (count : String) (rest : List String)
    (h0 : ds[0]? = some (nodesSentinel :: count :: rest)) :
    getSwarmNodes ds = getSwarmNodesLoop ds (strconvAtoi count).1.toNat 0 [] := by
  have hidx : goIndex ds 0 = .ok (nodesSentinel :: count :: rest) :=
    goIndex_natCast ds 0 _ h0
  have hk : goIndex (nodesSentinel :: count :: rest) 0 = .ok nodesSentinel := by simp [goIndex]
  have hc : goIndex (nodesSentinel :: count :: rest) 1 = .ok count := by simp [goIndex]
  simp [getSwarmNodes, hidx, hk, hc]

/-! ## Parsing the node report -/

/-- C1, as stated, fails: with the five-character key `Nodes` in the first row
the key differs from the sentinel of the program, which starts with a
backspace, and no node is returned. -/
theorem plain_key_yields_no_nodes :
    ¬ ∀ (n : Nat) (ds : List (List String)), ds.length = 1 + 4 * n →
        ds[0]? = some ["Nodes", toString n] →
        (∀ i < n, ∃ name addr, ds[1 + 4 * i]? = some [name, addr]) →
        ∃ nodes, getSwarmNodes ds = .ok nodes ∧ nodes.length = n := by
  intro h
  have h1 := h 1 reportPlainKey rfl rfl (by
    intro i hi
    have hi0 : i = 0 := by omega
    subst hi0
    exact ⟨_, _, rfl⟩)
  obtain ⟨nodes, hres, hlen⟩ := h1
  have hempty : getSwarmNodes reportPlainKey = .ok [] := by decide
  rw [hempty] at hres
  cases hres
  simp at hlen

/-- C1, amended: for every `n` and every report of `1 + 4n` rows (a Go slice, so
shorter than `2^63`) whose first row is the sentinel `"\bNodes"` with the
decimal text of `n`, and whose rows `1 + 4i`, `i < n`, have a key and a value,
`getSwarmNodes` returns exactly `n` nodes, in block order, the `i`-th with the
key of row `1 + 4i` as `Name` and its value as `Addr`. -/
theorem getSwarmNodes_blocks (n : Nat) (ds : List (List String))
    (hlen : ds.length = 1 + 4 * n) (hsize : ds.length < 2 ^ 63)
    (h0 : ds[0]? = some [nodesSentinel, toString n])
    (hrows : ∀ i < n, ∃ name addr rest, ds[1 + 4 * i]? = some (name :: addr :: rest)) :
    ∃ nodes, getSwarmNodes ds = .ok nodes ∧ nodes.length = n ∧
      ∀ i < n, ∃ name addr rest, ds[1 + 4 * i]? = some (name :: addr :: rest) ∧
        nodes[i]? = some { Addr := addr, Name := name } := by
  have hn : n < 2 ^ 63 := by omega
  have hcount : (strconvAtoi (toString n)).1.toNat = n := by
    rw [strconvAtoi_toString, if_pos hn]
    simp
  obtain ⟨nodes, hres, hl, hnodes⟩ := getSwarmNodesLoop_ok ds n 0 [] (by omega)
    (fun j _ hj => hrows j (by omega))
  refine ⟨nodes, ?_, hl, ?_⟩
  · rw [getSwarmNodes_sentinel ds _ _ h0, hcount]
    simpa using hres
  · intro i hi
    simpa using hnodes i hi

/-- Instance of amended C1: the report of three nodes. -/
theorem getSwarmNodes_blocks_witness :
    ∃ nodes, getSwarmNodes reportOfThree = .ok nodes ∧ nodes.length = 3 ∧
      ∀ i < 3, ∃ name addr rest, reportOfThree[1 + 4 * i]? = some (name :: addr :: rest) ∧
        nodes[i]? = some { Addr := addr, Name := name } :=
  getSwarmNodes_blocks 3 reportOfThree rfl (by decide) rfl (by
    intro i hi
    interval_cases i <;> exact ⟨_, _, _, rfl⟩)

/-- C2, as stated, fails: a report that announces one node and has two rows,
fewer than the five of a complete report, is parsed without a failure, since
the three metric rows of a block are never read. -/
theorem short_report_still_parsed :
    ¬ ∀ (n : Nat) (ds : List (List String)), 1 ≤ n →
        ds[0]? = some [nodesSentinel, toString n] → ds.length < 1 + 4 * n →
        ∀ nodes, getSwarmNodes ds ≠ .ok nodes := by
  intro h
  exact h 1 reportCutShort (by decide) rfl (by decide)
    [{ Addr := "10.0.0.1:2375", Name := "nodeA" }] (by decide)

/-- C2, amended: for every `n ≥ 1` and every report whose first row is the
sentinel with the decimal text of `n` and which has at most `4n - 3` rows, so
that the first row of the last block is missing, `getSwarmNodes` ends in an
index-out-of-range panic and returns no node list. -/
theorem getSwarmNodes_short (n : Nat) (ds : List (List String)) (hn : 1 ≤ n)
    (h0 : ds[0]? = some [nodesSentinel, toString n])
    (hshort : ds.length + 3 ≤ 4 * n) :
    getSwarmNodes ds = .error .indexOutOfRange := by
  rw [getSwarmNodes_sentinel ds _ _ h0, strconvAtoi_toString]
  by_cases hsmall : n ≤ 2 ^ 61
  · have hn63 : n < 2 ^ 63 := by omega
    rw [if_pos hn63]
    have hw : wrapInt (((n - 1 : Nat) : Int) * 4 + 1) = ((4 * n - 3 : Nat) : Int) := by
      rw [wrapInt_of_lt _ (by omega) (by omega)]
      omega
    have hbad : goIndex ds (wrapInt (((n - 1 : Nat) : Int) * 4 + 1))
        = .error .indexOutOfRange := by
      rw [hw]
      exact goIndex_natCast_none ds _ (by omega)
    have hk : (n : Int).toNat = n := by simp
    rw [hk]
    exact getSwarmNodesLoop_error ds (n - 1) hbad n 0 [] (by omega) (by omega)
  · have hbad : goIndex ds (wrapInt (((2 ^ 61 : Nat) : Int) * 4 + 1))
        = .error .indexOutOfRange := by
      have hneg : wrapInt (((2 ^ 61 : Nat) : Int) * 4 + 1) < 0 := by
        unfold wrapInt
        omega
      unfold goIndex
      rw [if_pos hneg]
    have hk : 2 ^ 61 < (if n < 2 ^ 63 then (n : Int) else maxInt).toNat := by
      split_ifs
      · simp
        omega
      · simp [maxInt]
    have := getSwarmNodesLoop_error ds (2 ^ 61) hbad
      (if n < 2 ^ 63 then (n : Int) else maxInt).toNat 0 [] (Nat.zero_le _) (by omega)
    simpa using this

/-- Instance of amended C2: the sentinel row alone, announcing one node. -/
theorem getSwarmNodes_short_witness :
    getSwarmNodes [[nodesSentinel, toString 1]] = .error .indexOutOfRange :=
  getSwarmNodes_short 1 [[nodesSentinel, toString 1]] (by decide) rfl (by decide)

/-- C6, as stated, fails: with `Nodes` as the expected sentinel, the key
`"\bNodes"` is a key other than the sentinel, and yet the report is parsed: a
node is returned when its row is there, and the program panics when the report
has the first row only. -/
theorem backspace_key_is_parsed :
    ¬ ∀ (key : String) (rest : List String) (rows : List (List String)),
        key ≠ "Nodes" → getSwarmNodes ((key :: rest) :: rows) = .ok [] := by
  intro h
  have h1 := h "\x08Nodes" ["1"] [["nodeA", "10.0.0.1:2375"]] (by decide)
  revert h1
  decide

/-- C6, amended: when the key of the first row is not the sentinel of the
program, the string `"\bNodes"` (a backspace, then `Nodes`) compared character
by character, `getSwarmNodes` returns the empty node list without a failure,
whatever the rest of the first row and the rows after it are. -/
theorem getSwarmNodes_other_key (key : String) (rest : List String)
    (rows : List (List String)) (h : key ≠ nodesSentinel) :
    getSwarmNodes ((key :: rest) :: rows) = .ok [] := by
  simp [getSwarmNodes, goIndex, h]

/-- Instance of amended C6: the key `"\bStrategy"`, followed by a block. -/
theorem getSwarmNodes_other_key_witness :
    getSwarmNodes (["\x08Strategy", "spread"] :: [["nodeA", "10.0.0.1:2375"]]) = .ok [] :=
  getSwarmNodes_other_key "\x08Strategy" ["spread"] [["nodeA", "10.0.0.1:2375"]] (by decide)

/-- C10, as stated, fails: the count text `99999999999999999999x` is no decimal
integer and `Atoi` rejects it, yet it returns the largest `int` with a range
error, because the digits overflow before the `x` is met; the program then
reads row 1 and panics on a report that has none.  The same happens for the
numeral `9223372036854775808`, one above the largest `int`. -/
theorem overflowing_count_is_used :
    (strconvAtoi "99999999999999999999x").2 ≠ none ∧
    'x' ∈ "99999999999999999999x".data ∧ isDecimalDigit 'x' = false ∧
    (strconvAtoi "99999999999999999999x").1 = maxInt ∧
    getSwarmNodes [[nodesSentinel, "99999999999999999999x"]] = .error .indexOutOfRange ∧
    getSwarmNodes [[nodesSentinel, "99999999999999999999x"]] ≠ .ok [] ∧
    (strconvAtoi "9223372036854775808").2 ≠ none ∧
    getSwarmNodes [[nodesSentinel, "9223372036854775808"]] = .error .indexOutOfRange := by
  refine ⟨?_, ?_, ?_, ?_, ?_, ?_, ?_, ?_⟩ <;> decide

/-- C10, amended: when the first row has the sentinel key and the count text
starts with `-`, or its digits at the start (after an optional `+`) denote
zero, or they denote a number below `2^64` and are followed by a character that
is not a digit, `Atoi` gives a count that is not positive and `getSwarmNodes`
returns the empty node list without a failure, whatever rows follow. -/
theorem getSwarmNodes_unusable_count (count : String) (rest : List String)
    (rows : List (List String))
    (h : count.data.head? = some '-' ∨
      digitsValue 0 (leadingDigits count) = 0 ∨
      (digitsValue 0 (leadingDigits count) < 2 ^ 64 ∧
        leadingDigits count ≠ unsignedPart count)) :
    (strconvAtoi count).1 ≤ 0 ∧
      getSwarmNodes ((nodesSentinel :: count :: rest) :: rows) = .ok [] := by
  have hle : (strconvAtoi count).1 ≤ 0 := by
    by_cases hm : count.data.head? = some '-'
    · exact strconvAtoi_minus count hm
    · rcases h with h | h
      · exact absurd h hm
      · exact le_of_eq (strconvAtoi_zero count hm h)
  refine ⟨hle, ?_⟩
  rw [getSwarmNodes_sentinel _ count rest (by simp), Int.toNat_of_nonpos hle]
  rfl

/-- Instances of amended C10: the count texts `three`, `3 ` (a digit and a
blank), the empty text, `0` and `-2`, each followed by a row. -/
theorem getSwarmNodes_unusable_count_witness :
    getSwarmNodes ([nodesSentinel, "three"] :: [["nodeA", "10.0.0.1:2375"]]) = .ok [] ∧
    getSwarmNodes ([nodesSentinel, "3 "] :: [["nodeA", "10.0.0.1:2375"]]) = .ok [] ∧
    getSwarmNodes ([nodesSentinel, ""] :: [["nodeA", "10.0.0.1:2375"]]) = .ok [] ∧
    getSwarmNodes ([nodesSentinel, "0"] :: [["nodeA", "10.0.0.1:2375"]]) = .ok [] ∧
    getSwarmNodes ([nodesSentinel, "-2"] :: [["nodeA", "10.0.0.1:2375"]]) = .ok [] :=
  ⟨(getSwarmNodes_unusable_count "three" [] [["nodeA", "10.0.0.1:2375"]]
      (Or.inr (Or.inl (by decide)))).2,
   (getSwarmNodes_unusable_count "3 " [] [["nodeA", "10.0.0.1:2375"]]
      (Or.inr (Or.inr (by decide)))).2,
   (getSwarmNodes_unusable_count "" [] [["nodeA", "10.0.0.1:2375"]]
      (Or.inr (Or.inl (by decide)))).2,
   (getSwarmNodes_unusable_count "0" [] [["nodeA", "10.0.0.1:2375"]]
      (Or.inr (Or.inl (by decide)))).2,
   (getSwarmNodes_unusable_count "-2" [] [["nodeA", "10.0.0.1:2375"]]
      (Or.inl (by decide))).2⟩

/-! ## The discovery configuration -/

/-- C3: when at least one entry of the server list is contained in the node's
address, the config built in `copyConsulConfigs` has `Server = true`,
`BootstrapExpect` equal to the length of the server list and `RetryJoin` equal
to the entries that did not match, in their order; `RetryJoin` holds neither
the node's address nor its advertise address, which is the text before the first
colon. -/
theorem consulConfig_of_server (node : SwarmNode) (servers : List String)
    (h : ∃ s ∈ servers, stringsContains node.Addr s = true) :
    ∃ cfg, buildConsulConfig node servers = .ok cfg ∧
      cfg.Server = true ∧
      cfg.BootstrapExpect = servers.length ∧
      cfg.RetryJoin = servers.filter (fun s => !stringsContains node.Addr s) ∧
      node.Addr ∉ cfg.RetryJoin ∧
      cfg.AdvertiseAddr ∉ cfg.RetryJoin ∧
      cfg.AdvertiseAddr = String.mk (node.Addr.data.takeWhile (fun x => x != ':')) := by
  have hany : servers.any (fun x => stringsContains node.Addr x) = true := by
    obtain ⟨s, hs, hc⟩ := h
    exact List.any_eq_true.mpr ⟨s, hs, hc⟩
  refine ⟨_, buildConsulConfig_eq node servers, ?_, ?_, rfl, ?_, ?_, rfl⟩
  · exact hany
  · simp [hany]
  · intro hmem
    have := (List.mem_filter.mp hmem).2
    simp [stringsContains_self] at this
  · intro hmem
    have hf := (List.mem_filter.mp hmem).2
    have hpre : stringsContains node.Addr
        (String.mk (node.Addr.data.takeWhile (fun x => x != ':'))) = true :=
      stringsContains_prefix _ _ (node.Addr.data.dropWhile (fun x => x != ':'))
        (List.takeWhile_append_dropWhile _ _).symm
    simp [hpre] at hf

/-- Instance of C3: node `10.0.0.1:2375` with the servers `10.0.0.1`, `10.0.0.2`. -/
theorem consulConfig_of_server_witness :
    ∃ cfg, buildConsulConfig ⟨"10.0.0.1:2375", "nodeA"⟩ ["10.0.0.1", "10.0.0.2"] = .ok cfg ∧
      cfg.Server = true ∧
      cfg.BootstrapExpect = (["10.0.0.1", "10.0.0.2"] : List String).length ∧
      cfg.RetryJoin = (["10.0.0.1", "10.0.0.2"] : List String).filter
        (fun s => !stringsContains (SwarmNode.mk "10.0.0.1:2375" "nodeA").Addr s) ∧
      (SwarmNode.mk "10.0.0.1:2375" "nodeA").Addr ∉ cfg.RetryJoin ∧
      cfg.AdvertiseAddr ∉ cfg.RetryJoin ∧
      cfg.AdvertiseAddr = String.mk
        ((SwarmNode.mk "10.0.0.1:2375" "nodeA").Addr.data.takeWhile (fun x => x != ':')) :=
  consulConfig_of_server ⟨"10.0.0.1:2375", "nodeA"⟩ ["10.0.0.1", "10.0.0.2"]
    ⟨"10.0.0.1", by decide, by decide⟩

/-- C4: when no entry of the server list is contained in the node's address,
the config built in `copyConsulConfigs` has `Server = false`, `BootstrapExpect`
zero and `RetryJoin` equal to the whole server list. -/
theorem consulConfig_of_client (node : SwarmNode) (servers : List String)
    (h : ∀ s ∈ servers, stringsContains node.Addr s = false) :
    ∃ cfg, buildConsulConfig node servers = .ok cfg ∧
      cfg.Server = false ∧ cfg.BootstrapExpect = 0 ∧ cfg.RetryJoin = servers := by
  have hany : servers.any (fun x => stringsContains node.Addr x) = false := by
    apply List.any_eq_false.mpr
    intro s hs
    simp [h s hs]
  refine ⟨_, buildConsulConfig_eq node servers, hany, ?_, ?_⟩
  · simp [hany]
  · apply List.filter_eq_self.mpr
    intro s hs
    simp [h s hs]

/-- Instance of C4: node `10.0.0.2:2375` with the single server `10.0.0.1`. -/
theorem consulConfig_of_client_witness :
    ∃ cfg, buildConsulConfig ⟨"10.0.0.2:2375", "nodeB"⟩ ["10.0.0.1"] = .ok cfg ∧
      cfg.Server = false ∧ cfg.BootstrapExpect = 0 ∧ cfg.RetryJoin = ["10.0.0.1"] :=
  consulConfig_of_client ⟨"10.0.0.2:2375", "nodeB"⟩ ["10.0.0.1"] (by decide)

/-- C7, as stated, fails: for the address `[::1]:2375`, which is the host
`[::1]` followed by a colon and the port `2375`, the advertise address is `[`
and not the host. -/
theorem advertiseAddr_not_host :
    ¬ ∀ (host port name : String) (servers : List String),
        port.data ≠ [] → (∀ c ∈ port.data, c.isDigit = true) →
        (buildConsulConfig ⟨host ++ ":" ++ port, name⟩ servers).map (·.AdvertiseAddr)
          = .ok host := by
  intro h
  have h1 := h "[::1]" "2375" "nodeA" [] (by decide) (by decide)
  revert h1
  decide

/-- C7, amended: for a host without a colon, the advertise address of the node
`host:port` is `host`, for any port text; the advertise address of the node
whose address is `host` alone is `host`; and the config is built, without a
failure, for every address, its advertise address being the text before the
first colon. -/
theorem advertiseAddr_strips_port (host port name : String) (servers : List String)
    (h : ':' ∉ host.data) :
    (buildConsulConfig ⟨host ++ ":" ++ port, name⟩ servers).map (·.AdvertiseAddr) = .ok host ∧
    (buildConsulConfig ⟨host, name⟩ servers).map (·.AdvertiseAddr) = .ok host ∧
    (∀ (node : SwarmNode) (l : List String), ∃ cfg, buildConsulConfig node l = .ok cfg ∧
      cfg.AdvertiseAddr = String.mk (node.Addr.data.takeWhile (fun x => x != ':'))) := by
  have hall : ∀ x ∈ host.data, (x != ':') = true := by
    intro x hx
    have : x ≠ ':' := fun e => h (e ▸ hx)
    simp [this]
  refine ⟨?_, ?_, fun node l => ⟨_, buildConsulConfig_eq node l, rfl⟩⟩
  · rw [buildConsulConfig_eq]
    have hd : (host ++ ":" ++ port).data = host.data ++ ':' :: port.data := by
      simp [String.data_append]
    simp only [Except.map, hd]
    rw [List.takeWhile_append_of_pos hall]
    simp [List.takeWhile]
  · rw [buildConsulConfig_eq]
    simp only [Except.map]
    rw [List.takeWhile_eq_self_iff.mpr hall]

/-- Instance of amended C7: host `10.0.0.1`, port `2375`. -/
theorem advertiseAddr_strips_port_witness :
    (buildConsulConfig ⟨"10.0.0.1" ++ ":" ++ "2375", "nodeA"⟩ ["10.0.0.1"]).map
      (·.AdvertiseAddr) = .ok "10.0.0.1" :=
  (advertiseAddr_strips_port "10.0.0.1" "2375" "nodeA" ["10.0.0.1"] (by decide)).1

/-- C9, as stated, fails: the node `10.0.0.11:2375` has the host `10.0.0.11`,
which is no entry of the server list `["10.0.0.1"]`, and yet its config is a
server-role config with an empty `RetryJoin`. -/
theorem role_by_host_fails :
    ¬ ∀ (host port name : String) (servers : List String),
        ':' ∉ host.data → (∀ s ∈ servers, ':' ∉ s.data) →
        ((buildConsulConfig ⟨host ++ ":" ++ port, name⟩ servers).map (·.Server) = .ok true
          ↔ host ∈ servers) := by
  intro h
  have h1 := h "10.0.0.11" "2375" "nodeB" ["10.0.0.1"] (by decide) (by decide)
  revert h1
  decide

/-- C9, amended: the config of the node `host:port` is a server-role config
exactly when some entry of the server list is contained in the address
`host:port`; it is one whenever `host` is an entry of the server list; and a
node whose address contains no entry of the server list is a client with the
whole server list as its `RetryJoin`. -/
theorem role_by_containment (host port name : String) (servers : List String) :
    ((buildConsulConfig ⟨host ++ ":" ++ port, name⟩ servers).map (·.Server) = .ok true
      ↔ ∃ s ∈ servers, stringsContains (host ++ ":" ++ port) s = true) ∧
    (host ∈ servers →
      (buildConsulConfig ⟨host ++ ":" ++ port, name⟩ servers).map (·.Server) = .ok true) ∧
    ((∀ s ∈ servers, stringsContains (host ++ ":" ++ port) s = false) →
      (buildConsulConfig ⟨host ++ ":" ++ port, name⟩ servers).map (·.Server) = .ok false ∧
      (buildConsulConfig ⟨host ++ ":" ++ port, name⟩ servers).map (·.RetryJoin)
        = .ok servers) := by
  have hiff : ((buildConsulConfig ⟨host ++ ":" ++ port, name⟩ servers).map (·.Server)
      = .ok true ↔ ∃ s ∈ servers, stringsContains (host ++ ":" ++ port) s = true) := by
    rw [buildConsulConfig_eq]
    simp [Except.map]
  refine ⟨hiff, ?_, ?_⟩
  · intro hmem
    refine hiff.mpr ⟨host, hmem, ?_⟩
    exact stringsContains_prefix _ _ (':' :: port.data) (by simp [String.data_append])
  · intro hno
    have hany : servers.any (fun x => stringsContains (host ++ ":" ++ port) x) = false := by
      apply List.any_eq_false.mpr
      intro s hs
      simp [hno s hs]
    have hfil : servers.filter (fun x => !stringsContains (host ++ ":" ++ port) x)
        = servers := by
      apply List.filter_eq_self.mpr
      intro s hs
      simp [hno s hs]
    rw [buildConsulConfig_eq]
    simp [Except.map, hany, hfil]

/-- Instance of amended C9: node `10.0.0.1:2375` with the server list
`["10.0.0.1"]`. -/
theorem role_by_containment_witness :
    (buildConsulConfig ⟨"10.0.0.1" ++ ":" ++ "2375", "nodeA"⟩ ["10.0.0.1"]).map (·.Server)
      = .ok true :=
  (role_by_containment "10.0.0.1" "2375" "nodeA" ["10.0.0.1"]).2.1 (by decide)

/-! ## The container specifications and the client calls -/

/-- C8, as stated, fails: the one volume binding of the specification submitted
by `startConsulContainer` carries no `ro` option, so the mount is not
read-only. -/
theorem consulBind_not_readOnly :
    ¬ ∀ (consulImage name : String), ∃ bind : String,
        (createdConfigs (startConsulContainer failingClient consulImage name 0).calls).map
          (·.HostConfig.Binds) = [[bind]] ∧
        (stringsSplit bind ":").take 2 = ["/etc/consul/consul.json", "/config/consul.json"] ∧
        bindIsReadOnly bind = true := by
  intro h
  obtain ⟨bind, h1, _, h3⟩ := h "consul-image" "consul"
  have hb : bind = "/etc/consul/consul.json:/config/consul.json" := by
    simp [startConsulContainer, createdConfigs, consulContainerConfig, consulHostConfig] at h1
    exact h1.symm
  subst hb
  revert h3
  decide

/-- C8, amended: for every client, image and container name, `startConsulContainer`
submits one specification, whose only volume binding is
`/etc/consul/consul.json:/config/consul.json`: the host path
`/etc/consul/consul.json` at the container path `/config/consul.json`, with no
option part, hence not read-only; `StartContainer` is given the same binding. -/
theorem consulBind_single {σ : Type} (client : DockerClient σ) (consulImage name : String)
    (st : σ) :
    (createdConfigs (startConsulContainer client consulImage name st).calls).map
      (·.HostConfig.Binds) = [["/etc/consul/consul.json:/config/consul.json"]] ∧
    stringsSplit "/etc/consul/consul.json:/config/consul.json" ":"
      = ["/etc/consul/consul.json", "/config/consul.json"] ∧
    bindIsReadOnly "/etc/consul/consul.json:/config/consul.json" = false ∧
    (∃ id, (startConsulContainer client consulImage name st).calls[1]?
      = some (.startContainer id consulHostConfig)) ∧
    consulHostConfig.Binds = ["/etc/consul/consul.json:/config/consul.json"] := by
  refine ⟨?_, by decide, by decide, ⟨_, rfl⟩, rfl⟩
  simp [startConsulContainer, createdConfigs, consulContainerConfig, consulHostConfig]

/-- C5, as stated, fails: on a client whose `CreateContainer` fails, each of the
four operations still calls `StartContainer` (with the empty id it was given)
and `copyConsulConfigs`, `startSwarmAgentContainer` and
`startSwarmManagerContainer` return normally; `startConsulContainer` also calls
`InspectContainer` and returns the node it reports. -/
theorem create_failure_not_surfaced :
    (∀ cfg name n, (createFailingClient.CreateContainer cfg name n).1.2 ≠ none) ∧
    (∃ hc, Call.startContainer "" hc ∈
        (copyConsulConfigs createFailingClient (fun _ => "") ⟨"10.0.0.1:2375", "nodeA"⟩
          ["10.0.0.1"] 0).calls) ∧
    (copyConsulConfigs createFailingClient (fun _ => "") ⟨"10.0.0.1:2375", "nodeA"⟩
      ["10.0.0.1"] 0).result = .ok () ∧
    (startConsulContainer createFailingClient "consul-image" "consul" 0).calls.drop 1
      = [.startContainer "" consulHostConfig, .inspectContainer ""] ∧
    (startConsulContainer createFailingClient "consul-image" "consul" 0).result
      = .ok ⟨"10.0.0.1:2375", "nodeA"⟩ ∧
    (startSwarmAgentContainer createFailingClient "swarm-image" "agent"
      ⟨"10.0.0.1:2375", "nodeA"⟩ "10.0.0.1" 0).calls.drop 1 = [.startContainer "" {}] ∧
    (startSwarmAgentContainer createFailingClient "swarm-image" "agent"
      ⟨"10.0.0.1:2375", "nodeA"⟩ "10.0.0.1" 0).result = .ok () ∧
    (startSwarmManagerContainer createFailingClient "swarm-image" "tmp-swarm" "manager"
      "consul://10.0.0.1:8500/swarm" false 0).calls.drop 1 = [.startContainer "" {}] ∧
    (startSwarmManagerContainer createFailingClient "swarm-image" "tmp-swarm" "manager"
      "consul://10.0.0.1:8500/swarm" false 0).result = .ok "" := by
  refine ⟨?_, ⟨{ Binds := ["/etc/consul:/config"] }, ?_⟩, ?_, ?_, ?_, ?_, ?_, ?_, ?_⟩
  · intro cfg name n
    simp [createFailingClient]
  · decide
  · decide
  · decide
  · decide
  · decide
  · decide
  · decide
  · decide

/-- C5, amended: whatever `CreateContainer` returns, error or not, each of the
four operations calls `CreateContainer` once and then `StartContainer` once
with the id `CreateContainer` returned; `startConsulContainer` then calls
`InspectContainer` with that id.  No error of the client reaches the caller:
`copyConsulConfigs`, `startSwarmAgentContainer` and `startSwarmManagerContainer`
return normally (the last one returns the id), and `startConsulContainer`
returns the node of the inspected container when there is one. -/
theorem client_errors_discarded {σ : Type} (client : DockerClient σ) (st : σ)
    (marshal : ConsulConfig → String) (node : SwarmNode) (servers : List String)
    (consulImage swarmImage tmpName name consulIP discoveryParam : String) (bindPort : Bool) :
    (∃ cfg hc, (copyConsulConfigs client marshal node servers st).calls =
        [.createContainer cfg "", .startContainer (client.CreateContainer cfg "" st).1.1 hc] ∧
      (copyConsulConfigs client marshal node servers st).result = .ok ()) ∧
    (∃ cfg hc, (startConsulContainer client consulImage name st).calls =
        [.createContainer cfg name, .startContainer (client.CreateContainer cfg name st).1.1 hc,
          .inspectContainer (client.CreateContainer cfg name st).1.1] ∧
      ∀ info swarmNode,
        (client.InspectContainer (client.CreateContainer cfg name st).1.1
          (client.StartContainer (client.CreateContainer cfg name st).1.1 hc
            (client.CreateContainer cfg name st).2).2).1.1 = some info →
        info.Node = some swarmNode →
        (startConsulContainer client consulImage name st).result = .ok swarmNode) ∧
    (∃ cfg hc, (startSwarmAgentContainer client swarmImage name node consulIP st).calls =
        [.createContainer cfg name, .startContainer (client.CreateContainer cfg name st).1.1 hc] ∧
      (startSwarmAgentContainer client swarmImage name node consulIP st).result = .ok ()) ∧
    (∃ cfg hc,
      (startSwarmManagerContainer client swarmImage tmpName name discoveryParam bindPort st).calls
        = [.createContainer cfg name,
            .startContainer (client.CreateContainer cfg name st).1.1 hc] ∧
      (startSwarmManagerContainer client swarmImage tmpName name discoveryParam bindPort st).result
        = .ok (client.CreateContainer cfg name st).1.1) := by
  refine ⟨?_, ?_, ?_, ?_⟩
  · simp only [copyConsulConfigs, buildConsulConfig_eq]
    exact ⟨_, _, rfl, trivial⟩
  · refine ⟨_, _, rfl, ?_⟩
    intro info swarmNode h1 h2
    simp only [startConsulContainer] at h1 ⊢
    simp [h1, h2]
  · exact ⟨_, _, rfl, rfl⟩
  · exact ⟨_, _, rfl, rfl⟩

/-- Instance of amended C5 on a client whose `CreateContainer` fails: the
consul container operation returns the node the inspection reports. -/
theorem client_errors_discarded_witness :
    (startConsulContainer createFailingClient "consul-image" "consul" 0).result
      = .ok ⟨"10.0.0.1:2375", "nodeA"⟩ := by
  obtain ⟨_, ⟨cfg, hc, hcalls, hres⟩, _, _⟩ :=
    client_errors_discarded createFailingClient 0 (fun _ => "") ⟨"10.0.0.1:2375", "nodeA"⟩
      ["10.0.0.1"] "consul-image" "swarm-image" "tmp-swarm" "consul" "10.0.0.1"
      "consul://10.0.0.1:8500/swarm" false
  exact hres { Id := "", Name := "c", Node := some ⟨"10.0.0.1:2375", "nodeA"⟩ } _ rfl rfl

end SwarmBootstrap
